import Mathlib

/-!
Formalization of the MaiBot-APIAdapter dispatch/retry engine
(`maibot_llmreq`): the message data model (`payload_content/message.py`),
the payload compressor (`utils.compress_messages`), the failure policy
(`model_client.default_exception_handler`), the candidate trial loops
(`ModelRequestHandler.get_response` / `get_embedding`), and the
`ModelManager.__getitem__` accessor.

Python exceptions are modelled with `Except`; the provider client is an
abstract behaviour mapping (candidate index, attempt index) to either a
response envelope or one of the classified exception kinds.  Observable
actions of a dispatch call (usage-record creation/finalization, provider
invocations, sleeps, payload replacement) are collected in an event trace
so that the counting invariants can be stated.
-/

namespace Maibot

/-- Message roles, from `payload_content/message.py` (`RoleType`). -/
inductive RoleType
  | system
  | user
  | assistant
  | tool
deriving DecidableEq, Repr

/-- One element of a list-shaped message content: a text part (a plain
`str` in the source) or an image part (a `(format, base64)` tuple). -/
inductive ContentItem
  | text (s : String)
  | image (format : String) (base64 : String)
deriving DecidableEq, Repr

/-- Message content: either a plain string or a list of parts, mirroring
`content: str | List[Tuple[str, str] | str]`. -/
inductive Content
  | str (s : String)
  | items (l : List ContentItem)
deriving DecidableEq, Repr

/-- The `Message` class of `payload_content/message.py`. -/
structure Message where
  role : RoleType
  content : Content
  tool_call_id : Option String
deriving DecidableEq, Repr

/-- Image formats accepted by `MessageBuilder.add_image_content`
(`SUPPORTED_IMAGE_FORMATS`). -/
def SUPPORTED_IMAGE_FORMATS : List String := ["jpg", "jpeg", "png", "webp", "gif"]

/-- State of a `MessageBuilder` (`payload_content/message.py`): a role
(defaulting to `User`), an accumulated content list and an optional
tool-call id. -/
structure MessageBuilder where
  role : RoleType
  content : List ContentItem
  tool_call_id : Option String
deriving DecidableEq, Repr

/-- The freshly constructed builder (`MessageBuilder.__init__`). -/
def MessageBuilder.init : MessageBuilder :=
  { role := RoleType.user, content := [], tool_call_id := none }

/-- Python `str.lower()` as used on image format names: character-wise
lower-casing (formats are plain ASCII words). -/
def lowerString (s : String) : String := ⟨s.data.map Char.toLower⟩

/-- Method `MessageBuilder.add_text_content`: appends the text, never fails. -/
def MessageBuilder.add_text_content (b : MessageBuilder) (text : String) :
    MessageBuilder :=
  { b with content := b.content ++ [ContentItem.text text] }

/-- Method `MessageBuilder.add_image_content`: validates the (lower-cased)
format against `SUPPORTED_IMAGE_FORMATS` and rejects an empty base64
string, raising `ValueError` (modelled as `Except.error`) otherwise. -/
def MessageBuilder.add_image_content (b : MessageBuilder)
    (image_format : String) (image_base64 : String) :
    Except String MessageBuilder :=
  if ¬ (SUPPORTED_IMAGE_FORMATS.contains (lowerString image_format)) then
    Except.error "unsupported image format"
  else if image_base64 = "" then
    Except.error "image base64 must not be empty"
  else
    Except.ok { b with content := b.content ++ [ContentItem.image image_format image_base64] }

/-- Method `MessageBuilder.build`: raises on empty content and on a Tool
role without a tool-call id; a content list holding a single string
collapses to plain-string content. -/
def MessageBuilder.build (b : MessageBuilder) : Except String Message :=
  if b.content.length = 0 then
    Except.error "content must not be empty"
  else if b.role = RoleType.tool ∧ b.tool_call_id = none then
    Except.error "tool role requires a tool call id"
  else
    Except.ok
      { role := b.role
        content :=
          match b.content with
          | [ContentItem.text s] => Content.str s
          | l => Content.items l
        tool_call_id := b.tool_call_id }

/-- Inner loop of `utils.compress_messages` over one message's content
list: image tuples go through `add_image_content` with the compressed
base64 data, all other items through `add_text_content`.  `compressImage`
abstracts `compress_base64_image_by_scale` (PIL-based, catches its own
exceptions and always returns a string). -/
def addContentItems (compressImage : String → String) (b : MessageBuilder) :
    List ContentItem → Except String MessageBuilder
  | [] => Except.ok b
  | ContentItem.image fmt data :: rest =>
    match b.add_image_content fmt (compressImage data) with
    | Except.error e => Except.error e
    | Except.ok b2 => addContentItems compressImage b2 rest
  | ContentItem.text s :: rest =>
    addContentItems compressImage (b.add_text_content s) rest

/-- Function `utils.compress_messages`: a message with list content is
rebuilt through a fresh `MessageBuilder` (so with role `User` and no
tool-call id), compressing every image part; a message with string
content is passed through unchanged. -/
def compress_messages (compressImage : String → String) :
    List Message → Except String (List Message)
  | [] => Except.ok []
  | m :: rest =>
    match m.content with
    | Content.items l =>
      match addContentItems compressImage MessageBuilder.init l with
      | Except.error e => Except.error e
      | Except.ok b =>
        match b.build with
        | Except.error e => Except.error e
        | Except.ok m2 =>
          match compress_messages compressImage rest with
          | Except.error e => Except.error e
          | Except.ok rest2 => Except.ok (m2 :: rest2)
    | Content.str _ =>
      match compress_messages compressImage rest with
      | Except.error e => Except.error e
      | Except.ok rest2 => Except.ok (m :: rest2)

/-- Per-model usage configuration entry (`ModelUsageConfigItem` consumed in
`model_client/__init__.py`): optional overrides for retry count, token
budget and temperature.  An absent value is `none`; the source reads these
fields with Python truthiness (`or` / `x if x else y`), so a stored `0` is
treated like an absent value at the use sites below. -/
structure ModelUsageConfigItem where
  name : String
  max_retry : Option Nat
  max_tokens : Option Nat
  temperature : Option ℚ
deriving DecidableEq, Repr

/-- Request-level defaults (`RequestConfig` consumed in
`model_client/__init__.py`). -/
structure RequestConfig where
  max_retry : Nat
  retry_interval : Int
  default_max_tokens : Nat
  default_temperature : ℚ
deriving DecidableEq, Repr

/-- Backend model descriptor (`ModelInfo`), reduced to the fields the
dispatcher reads (`name`, `api_provider`). -/
structure ModelInfo where
  name : String
  api_provider : String
deriving DecidableEq, Repr

/-- Expression `(model_usage_config.max_retry or self.req_conf.max_retry)`
from `get_response` / `get_embedding`: Python `or` picks the override only
when it is truthy (present and nonzero). -/
def effective_max_retry (override : Option Nat) (default : Nat) : Nat :=
  match override with
  | none => default
  | some v => if v = 0 then default else v

/-- Expression `model_usage_config.max_tokens if model_usage_config.max_tokens
else self.req_conf.default_max_tokens` from `get_response`. -/
def effective_max_tokens (override : Option Nat) (default : Nat) : Nat :=
  match override with
  | none => default
  | some v => if v = 0 then default else v

/-- Expression `model_usage_config.temperature if model_usage_config.temperature
else self.req_conf.default_temperature` from `get_response` (Python float
`0.0` is falsy). -/
def effective_temperature (override : Option ℚ) (default : ℚ) : ℚ :=
  match override with
  | none => default
  | some v => if v = 0 then default else v

/-- The classified provider-client failure kinds of `exceptions`
(`NetworkConnectionError`, `ReqAbortException`, `RespNotOkException`,
`RespParseException`), plus a case for any other exception reaching the
`except Exception` handler. -/
inductive ProviderExc
  | networkConnectionError (msg : String)
  | reqAbortException (msg : String)
  | respNotOkException (status_code : Nat) (message : String)
  | respParseException (message : String)
  | otherException (msg : String)
deriving DecidableEq, Repr

/-- Normalized response envelope (`APIResponse` in
`model_client/base_client.py`); `raw_data` is kept opaque as a string. -/
structure APIResponse where
  content : Option String
  reasoning_content : Option String
  tool_calls : Option (List (String × String))
  embedding : Option (List ℚ)
  usage : Option (Nat × Nat × Nat)
  raw_data : String
deriving DecidableEq, Repr

/-- Outcome of one provider-client invocation: either a normalized
envelope or one of the classified exceptions. -/
inductive ProviderOutcome
  | resp (r : APIResponse)
  | exc (e : ProviderExc)
deriving DecidableEq, Repr

/-- Function `default_exception_handler` of `model_client/__init__.py`.
Returns `(wait, newMessages)`: `wait = -1` means stop requesting this
model, `wait = 0` means retry immediately, any other value is a sleep
duration; `newMessages` is the compressed message list on the one
payload-shrink path.  The 413 branch calls `compress_messages`, whose
`ValueError` propagates (hence the `Except`). -/
def default_exception_handler (compressImage : String → String)
    (e : ProviderExc) (remain_try : Nat) (retry_interval : Int)
    (messages : Option (List Message × Bool)) :
    Except String (Int × Option (List Message)) :=
  match e with
  | ProviderExc.networkConnectionError _ =>
    if remain_try > 0 then Except.ok (retry_interval, none)
    else Except.ok (-1, none)
  | ProviderExc.reqAbortException _ => Except.ok (-1, none)
  | ProviderExc.respNotOkException status_code _ =>
    if status_code ∈ [400, 401, 402, 403, 404] then
      Except.ok (-1, none)
    else if status_code = 413 then
      match messages with
      | some (msgs, alreadyCompressed) =>
        if ¬ alreadyCompressed then
          match compress_messages compressImage msgs with
          | Except.error err => Except.error err
          | Except.ok compressed => Except.ok (0, some compressed)
        else Except.ok (-1, none)
      | none => Except.ok (-1, none)
    else if status_code = 429 then
      if remain_try > 0 then Except.ok (retry_interval, none)
      else Except.ok (-1, none)
    else if status_code ≥ 500 then
      if remain_try > 0 then Except.ok (retry_interval, none)
      else Except.ok (-1, none)
    else Except.ok (-1, none)
  | ProviderExc.respParseException _ => Except.ok (-1, none)
  | ProviderExc.otherException _ => Except.ok (-1, none)

/-- Observable actions of a dispatch call: usage-record creation
(`create_usage`), a provider-client invocation, a finalizing update
(`update_usage` with usage data on success / `FAILURE` status on error),
an `asyncio.sleep`, and the assignment of a compressed message list
(`compressed_messages = handle_res[1]`). -/
inductive Event
  | create
  | invoke
  | updateSuccess
  | updateFailure
  | sleep (d : Int)
  | replace
deriving DecidableEq, Repr

/-- Result of one candidate's trial loop: a successful envelope, an
exhausted budget (move to the next candidate), or a Python exception
escaping the loop. -/
inductive TrialResult
  | success (r : APIResponse)
  | exhausted
  | raised (msg : String)
deriving DecidableEq, Repr

/-- Result of a whole dispatch call: the envelope of the first successful
attempt, `exhausted` for the `return None` path after all candidates
failed, or an escaping Python exception. -/
inductive DispatchResult
  | success (r : APIResponse)
  | exhausted
  | raised (msg : String)
deriving DecidableEq, Repr

/-- The `while remain_try > 0` attempt loop of
`ModelRequestHandler.get_response` for one candidate, recursing on the
remaining-attempt counter.  `beh` gives the outcome of the provider
invocation at each attempt index.  Each iteration creates a usage record,
invokes the client, and on failure finalizes the record, decrements the
counter and applies the handler decision (abort / sleep-and-retry /
replace payload); a successful attempt updates the record only when the
response carries usage data. -/
def response_trial (compressImage : String → String)
    (beh : Nat → ProviderOutcome) (messages : List Message)
    (retry_interval : Int) :
    Nat → Nat → Option (List Message) → List Event × TrialResult
  | 0, _, _ => ([], TrialResult.exhausted)
  | remain + 1, attempt, compressed_messages =>
    match beh attempt with
    | ProviderOutcome.resp response =>
      if response.usage.isSome then
        ([Event.create, Event.invoke, Event.updateSuccess],
          TrialResult.success response)
      else
        ([Event.create, Event.invoke], TrialResult.success response)
    | ProviderOutcome.exc e =>
      let pre := [Event.create, Event.invoke, Event.updateFailure]
      match default_exception_handler compressImage e remain retry_interval
          (some (messages, compressed_messages.isSome)) with
      | Except.error msg => (pre, TrialResult.raised msg)
      | Except.ok (wait, newMessages) =>
        if wait = -1 then
          (pre ++ (if newMessages.isSome then [Event.replace] else []),
            TrialResult.exhausted)
        else
          let sleepEvents := if wait ≠ 0 then [Event.sleep wait] else []
          let replaceEvents := if newMessages.isSome then [Event.replace] else []
          let compressed2 :=
            match newMessages with
            | some m => some m
            | none => compressed_messages
          let t := response_trial compressImage beh messages retry_interval
            remain (attempt + 1) compressed2
          (pre ++ sleepEvents ++ replaceEvents ++ t.1, t.2)

/-- The `while remain_try` attempt loop of
`ModelRequestHandler.get_embedding` for one candidate.  The handler is
called without a message list (`messages=None`) and its second component
is ignored; a successful attempt returns at once without updating the
usage record. -/
def embedding_trial (compressImage : String → String)
    (beh : Nat → ProviderOutcome) (retry_interval : Int) :
    Nat → Nat → List Event × TrialResult
  | 0, _ => ([], TrialResult.exhausted)
  | remain + 1, attempt =>
    match beh attempt with
    | ProviderOutcome.resp response =>
      ([Event.create, Event.invoke], TrialResult.success response)
    | ProviderOutcome.exc e =>
      let pre := [Event.create, Event.invoke, Event.updateFailure]
      match default_exception_handler compressImage e remain retry_interval none with
      | Except.error msg => (pre, TrialResult.raised msg)
      | Except.ok (wait, _) =>
        if wait = -1 then (pre, TrialResult.exhausted)
        else
          let sleepEvents := if wait ≠ 0 then [Event.sleep wait] else []
          let t := embedding_trial compressImage beh retry_interval remain (attempt + 1)
          (pre ++ sleepEvents ++ t.1, t.2)

/-- The candidate iteration of `ModelRequestHandler.get_response`
(`for config_item in self.configs`): each candidate's trial starts with
`remain_try = (max_retry or default) + 1` and a `None` compressed list;
the first successful trial ends the call, an escaping exception
propagates, and an exhausted trial moves on to the next candidate. -/
def get_response_loop (compressImage : String → String)
    (beh : Nat → Nat → ProviderOutcome) (req_conf : RequestConfig)
    (messages : List Message) :
    List (ModelInfo × ModelUsageConfigItem) → Nat → List Event × DispatchResult
  | [], _ => ([], DispatchResult.exhausted)
  | config_item :: rest, idx =>
    let model_usage_config := config_item.2
    let remain_try :=
      effective_max_retry model_usage_config.max_retry req_conf.max_retry + 1
    let t := response_trial compressImage (beh idx) messages
      req_conf.retry_interval remain_try 0 none
    match t.2 with
    | TrialResult.success r => (t.1, DispatchResult.success r)
    | TrialResult.raised m => (t.1, DispatchResult.raised m)
    | TrialResult.exhausted =>
      let d := get_response_loop compressImage beh req_conf messages rest (idx + 1)
      (t.1 ++ d.1, d.2)

/-- Method `ModelRequestHandler.get_response`: run the candidate loop over
`self.configs`; when every candidate is exhausted the call logs and
returns `None` (modelled as `DispatchResult.exhausted`). -/
def get_response (compressImage : String → String)
    (beh : Nat → Nat → ProviderOutcome)
    (configs : List (ModelInfo × ModelUsageConfigItem))
    (req_conf : RequestConfig) (messages : List Message) :
    List Event × DispatchResult :=
  get_response_loop compressImage beh req_conf messages configs 0

/-- The candidate iteration of `ModelRequestHandler.get_embedding`. -/
def get_embedding_loop (compressImage : String → String)
    (beh : Nat → Nat → ProviderOutcome) (req_conf : RequestConfig) :
    List (ModelInfo × ModelUsageConfigItem) → Nat → List Event × DispatchResult
  | [], _ => ([], DispatchResult.exhausted)
  | config_item :: rest, idx =>
    let model_usage_config := config_item.2
    let remain_try :=
      effective_max_retry model_usage_config.max_retry req_conf.max_retry + 1
    let t := embedding_trial compressImage (beh idx)
      req_conf.retry_interval remain_try 0
    match t.2 with
    | TrialResult.success r => (t.1, DispatchResult.success r)
    | TrialResult.raised m => (t.1, DispatchResult.raised m)
    | TrialResult.exhausted =>
      let d := get_embedding_loop compressImage beh req_conf rest (idx + 1)
      (t.1 ++ d.1, d.2)

/-- Method `ModelRequestHandler.get_embedding`: run the candidate loop
over `self.configs`. -/
def get_embedding (compressImage : String → String)
    (beh : Nat → Nat → ProviderOutcome)
    (configs : List (ModelInfo × ModelUsageConfigItem))
    (req_conf : RequestConfig) : List Event × DispatchResult :=
  get_embedding_loop compressImage beh req_conf configs 0

/-- Test whether an event is a usage-record creation. -/
def Event.isCreate : Event → Bool
  | Event.create => true
  | _ => false

/-- Test whether an event is a provider-client invocation. -/
def Event.isInvoke : Event → Bool
  | Event.invoke => true
  | _ => false

/-- Test whether an event is a finalizing usage-record update (success or
failure). -/
def Event.isUpdate : Event → Bool
  | Event.updateSuccess => true
  | Event.updateFailure => true
  | _ => false

/-- Test whether an event is a failure-finalizing update. -/
def Event.isUpdateFailure : Event → Bool
  | Event.updateFailure => true
  | _ => false

/-- Test whether an event is a payload replacement (compressed messages
installed). -/
def Event.isReplace : Event → Bool
  | Event.replace => true
  | _ => false

/-- Test whether an event is a sleep. -/
def Event.isSleep : Event → Bool
  | Event.sleep _ => true
  | _ => false

/-- Number of events in a trace satisfying `p`. -/
def countE (p : Event → Bool) (evs : List Event) : Nat :=
  (evs.filter p).length

/-- A successful `get_response` attempt whose envelope carries no usage
tuple is the one attempt that never receives a finalizing update; this
counts it (0 or 1) for a trial outcome. -/
def responseMissingUpdate : TrialResult → Nat
  | TrialResult.success r => if r.usage.isSome then 0 else 1
  | _ => 0

/-- Dispatch-level version of `responseMissingUpdate`. -/
def responseMissingUpdateD : DispatchResult → Nat
  | DispatchResult.success r => if r.usage.isSome then 0 else 1
  | _ => 0

/-- A successful `get_embedding` attempt never updates its usage record;
this counts the missing update (0 or 1) for a trial outcome. -/
def embeddingMissingUpdate : TrialResult → Nat
  | TrialResult.success _ => 1
  | _ => 0

/-- Dispatch-level version of `embeddingMissingUpdate`. -/
def embeddingMissingUpdateD : DispatchResult → Nat
  | DispatchResult.success _ => 1
  | _ => 0

/-- Keyword parameters accepted by `ModelRequestHandler.__init__`
(`model_client/__init__.py`): `(self, task_name, manager)` — `self` is
bound positionally, leaving these keyword-bindable names. -/
def modelRequestHandlerInitParams : List String := ["task_name", "manager"]

/-- Keyword arguments supplied at the `ModelRequestHandler(...)` call
inside `ModelManager.__getitem__` (`model_manager.py`). -/
def getitemCallKeywords : List String :=
  ["task_name", "usage_statistic", "config", "api_client_map"]

/-- Python call binding: a call with keyword arguments raises `TypeError`
(before the callee body runs) unless every supplied keyword names a
parameter of the callee. -/
def keywordsAccepted (params kwargs : List String) : Bool :=
  kwargs.all params.contains

/-- Possible outcomes of `ModelManager.__getitem__`: `KeyError` for an
unregistered task, `TypeError` from binding the `ModelRequestHandler`
call, or a constructed handler for the task. -/
inductive GetitemResult
  | keyErr (msg : String)
  | typeErr (msg : String)
  | handler (task_name : String)
deriving DecidableEq, Repr

/-- Method `ModelManager.__getitem__` (`model_manager.py`): raise
`KeyError` when the task is not in `task_model_usage_map`, otherwise call
`ModelRequestHandler(task_name=..., usage_statistic=..., config=...,
api_client_map=...)`; per Python keyword binding this call raises
`TypeError` when a keyword is not among `ModelRequestHandler.__init__`'s
parameters, and only otherwise returns the handler.  The registered task
names are abstracted as the list of keys of `task_model_usage_map`. -/
def modelManager_getitem (task_model_usage_map : List String)
    (task_name : String) : GetitemResult :=
  if ¬ (task_model_usage_map.contains task_name) then
    GetitemResult.keyErr "not registered in ModelManager"
  else if ¬ (keywordsAccepted modelRequestHandlerInitParams getitemCallKeywords) then
    GetitemResult.typeErr "unexpected keyword argument"
  else
    GetitemResult.handler task_name

/-- Total retry budget of a candidate list: the claimed bound
Σ (effective_max_retry_i + 1). -/
def retry_budget (req_conf : RequestConfig)
    (configs : List (ModelInfo × ModelUsageConfigItem)) : Nat :=
  (configs.map
    (fun c => effective_max_retry c.2.max_retry req_conf.max_retry + 1)).sum

/-- Spec-side item transformation used to characterize
`compress_messages`: image parts get their base64 data compressed, text
parts are unchanged. -/
def transformItem (compressImage : String → String) : ContentItem → ContentItem
  | ContentItem.text s => ContentItem.text s
  | ContentItem.image fmt data => ContentItem.image fmt (compressImage data)

/-- Spec-side content shape produced by `MessageBuilder.build`: a
singleton text list collapses to plain-string content. -/
def rebuiltContent (l : List ContentItem) : Content :=
  match l with
  | [ContentItem.text s] => Content.str s
  | _ => Content.items l

/-- Spec-side per-message characterization of `compress_messages`: a
string-content message is passed through; a list-content message is
rebuilt with role `User`, no tool-call id, and transformed items. -/
def compress_one (compressImage : String → String) (m : Message) : Message :=
  match m.content with
  | Content.str _ => m
  | Content.items l =>
    { role := RoleType.user
      content := rebuiltContent (l.map (transformItem compressImage))
      tool_call_id := none }

/-- Validity of one content item for the compression path: an image part
must carry a supported format and its compressed data must be nonempty
(otherwise `add_image_content` raises). -/
def validItemB (compressImage : String → String) : ContentItem → Bool
  | ContentItem.text _ => true
  | ContentItem.image fmt data =>
    SUPPORTED_IMAGE_FORMATS.contains (lowerString fmt) &&
      !(compressImage data == "")

/-- Well-formedness of one message for the compression path: list content
must be nonempty (otherwise `build` raises) with valid items.  Messages
produced by `MessageBuilder` satisfy this. -/
def wellFormedMessageB (compressImage : String → String) (m : Message) : Bool :=
  match m.content with
  | Content.str _ => true
  | Content.items l => !(l.isEmpty) && l.all (validItemB compressImage)

/-- Fixture: a minimal model descriptor. -/
def mi0 : ModelInfo := { name := "m", api_provider := "p" }

/-- Fixture: a usage config with no overrides. -/
def mu0 : ModelUsageConfigItem :=
  { name := "m", max_retry := none, max_tokens := none, temperature := none }

/-- Fixture: a usage config whose overrides are all the (falsy) zero
values. -/
def muZero : ModelUsageConfigItem :=
  { name := "m", max_retry := some 0, max_tokens := some 0, temperature := some 0 }

/-- Fixture: request defaults with `max_retry = 2` and a 10-second retry
interval. -/
def rc0 : RequestConfig :=
  { max_retry := 2, retry_interval := 10, default_max_tokens := 1024,
    default_temperature := 7 / 10 }

/-- Fixture: an envelope carrying no usage tuple. -/
def respNoUsage : APIResponse :=
  { content := some "hi", reasoning_content := none, tool_calls := none,
    embedding := none, usage := none, raw_data := "" }

/-- Fixture: an envelope carrying a usage tuple. -/
def respWithUsage : APIResponse :=
  { content := some "hi", reasoning_content := none, tool_calls := none,
    embedding := none, usage := some (3, 5, 8), raw_data := "" }

/-- Fixture behaviour: every invocation succeeds with a usage-less
envelope. -/
def behOkNoUsage : Nat → Nat → ProviderOutcome :=
  fun _ _ => ProviderOutcome.resp respNoUsage

/-- Fixture behaviour: every invocation fails with a connection error. -/
def behNetFail : Nat → Nat → ProviderOutcome :=
  fun _ _ => ProviderOutcome.exc (ProviderExc.networkConnectionError "net")

/-- Fixture behaviour: every invocation fails with status 413. -/
def beh413 : Nat → Nat → ProviderOutcome :=
  fun _ _ => ProviderOutcome.exc (ProviderExc.respNotOkException 413 "too large")

/-- Fixture: a message with an empty content list, as `Message.__init__`
allows but `MessageBuilder` would refuse to build. -/
def badMsg : Message :=
  { role := RoleType.user, content := Content.items [], tool_call_id := none }

/-! Counting helpers. -/

@[simp]
theorem countE_nil (p : Event → Bool) : countE p [] = 0 := rfl

@[simp]
theorem countE_cons (p : Event → Bool) (e : Event) (l : List Event) :
    countE p (e :: l) = (if p e then 1 else 0) + countE p l := by
  simp only [countE, List.filter_cons]
  split <;> simp <;> omega

@[simp]
theorem countE_append (p : Event → Bool) (a b : List Event) :
    countE p (a ++ b) = countE p a + countE p b := by
  simp [countE, List.filter_append]

/-! Failure-policy helper lemmas. -/

/-- When the shrunk flag is already set, the handler never produces a new
message list and never raises. -/
theorem handler_flag_true (ci : String → String) (e : ProviderExc) (n : Nat)
    (ri : Int) (msgs : List Message) :
    ∃ w : Int, default_exception_handler ci e n ri (some (msgs, true)) =
      Except.ok (w, none) := by
  cases e <;> simp only [default_exception_handler] <;>
    (repeat' split) <;> first | (exact ⟨_, rfl⟩) | simp_all

/-- When no message list is supplied (the embedding path), the handler
never produces a new message list and never raises. -/
theorem handler_no_messages (ci : String → String) (e : ProviderExc) (n : Nat)
    (ri : Int) :
    ∃ w : Int, default_exception_handler ci e n ri none =
      Except.ok (w, none) := by
  cases e <;> simp only [default_exception_handler] <;>
    (repeat' split) <;> first | (exact ⟨_, rfl⟩) | simp_all

/-- When the original messages compress successfully, the handler never
raises, whatever the shrunk flag. -/
theorem handler_no_raise (ci : String → String) (e : ProviderExc) (n : Nat)
    (ri : Int) (msgs : List Message) (flag : Bool) (cm : List Message)
    (hc : compress_messages ci msgs = Except.ok cm) (m : String) :
    default_exception_handler ci e n ri (some (msgs, flag)) ≠
      Except.error m := by
  cases e <;> simp only [default_exception_handler] <;>
    (repeat' split) <;> simp_all

/-- C4 counterexample: a per-model override of 0 is NOT used — Python
truthiness makes `max_retry = 0`, `max_tokens = 0` and `temperature = 0.0`
fall back to the defaults, observably: with `max_retry = 0` overridden and
a default of 2, a single always-failing candidate is invoked 3 times, not
once. -/
theorem C4_counterexample :
    effective_max_retry (some 0) 2 = 2 ∧
    effective_max_tokens (some 0) 1024 = 1024 ∧
    effective_temperature (some 0) (7 / 10) = 7 / 10 ∧
    countE Event.isInvoke (get_response id behNetFail [(mi0, muZero)] rc0 []).1 = 3 := by
  refine ⟨rfl, rfl, by norm_num [effective_temperature], by decide⟩

/-- C4 amended: the candidate override wins only when it is truthy
(present and nonzero); an absent override or an override equal to 0 (or
0.0) falls back to the RequestConfig default. -/
theorem C4_amended (v d : Nat) (t td : ℚ) (hv : v ≠ 0) (ht : t ≠ 0) :
    effective_max_retry (some v) d = v ∧ effective_max_retry none d = d ∧
    effective_max_retry (some 0) d = d ∧
    effective_max_tokens (some v) d = v ∧ effective_max_tokens none d = d ∧
    effective_max_tokens (some 0) d = d ∧
    effective_temperature (some t) td = t ∧
    effective_temperature none td = td ∧
    effective_temperature (some 0) td = td := by
  simp [effective_max_retry, effective_max_tokens, effective_temperature, hv, ht]

/-- C4 witness: the amended precedence rule at concrete values. -/
theorem C4_witness :
    effective_max_retry (some 5) 2 = 5 ∧ effective_max_retry none 2 = 2 ∧
    effective_max_retry (some 0) 2 = 2 ∧
    effective_max_tokens (some 5) 2 = 5 ∧ effective_max_tokens none 2 = 2 ∧
    effective_max_tokens (some 0) 2 = 2 ∧
    effective_temperature (some (1 / 2)) (7 / 10) = 1 / 2 ∧
    effective_temperature none (7 / 10) = 7 / 10 ∧
    effective_temperature (some 0) (7 / 10) = 7 / 10 :=
  C4_amended 5 2 (1 / 2) (7 / 10) (by decide) (by norm_num)

/-- C9: for every registered task name, `ModelManager.__getitem__` raises
`TypeError` — the `ModelRequestHandler(...)` call supplies keyword
arguments (`usage_statistic`, `config`, `api_client_map`) that
`ModelRequestHandler.__init__` (parameters `task_name`, `manager`) does
not accept — so the success path of obtaining a handler by indexing is
unreachable. -/
theorem C9_getitem_type_error (task_model_usage_map : List String)
    (task_name : String)
    (h : task_model_usage_map.contains task_name = true) :
    modelManager_getitem task_model_usage_map task_name =
      GetitemResult.typeErr "unexpected keyword argument" ∧
    ∀ t, modelManager_getitem task_model_usage_map task_name ≠
      GetitemResult.handler t := by
  have hk : keywordsAccepted modelRequestHandlerInitParams getitemCallKeywords
      = false := by decide
  have hmem : task_name ∈ task_model_usage_map := by simpa using h
  refine ⟨?_, ?_⟩
  · simp [modelManager_getitem, hmem, hk]
  · intro t
    simp [modelManager_getitem, hmem, hk]

/-- C9 witness: indexing with a concrete registered task yields
`TypeError`. -/
theorem C9_witness :
    modelManager_getitem ["task1"] "task1" =
      GetitemResult.typeErr "unexpected keyword argument" :=
  (C9_getitem_type_error ["task1"] "task1" (by decide)).1

/-- C6: the failure policy maps statuses 400-404, the explicit
interruption exception, the response-parse exception, any unclassified
exception and any other unclassified status code to Abort (`(-1, none)`),
independent of the remaining count and the shrunk flag; an aborted trial
performs no further attempt against that candidate and the candidate loop
proceeds with the next candidate. -/
theorem C6_abort_classifications :
    (∀ (ci : String → String) (code n : Nat) (ri : Int)
        (margs : Option (List Message × Bool)) (s : String),
      code ∈ [400, 401, 402, 403, 404] →
      default_exception_handler ci (ProviderExc.respNotOkException code s)
        n ri margs = Except.ok (-1, none)) ∧
    (∀ (ci : String → String) (n : Nat) (ri : Int)
        (margs : Option (List Message × Bool)) (m : String),
      default_exception_handler ci (ProviderExc.reqAbortException m)
        n ri margs = Except.ok (-1, none)) ∧
    (∀ (ci : String → String) (n : Nat) (ri : Int)
        (margs : Option (List Message × Bool)) (m : String),
      default_exception_handler ci (ProviderExc.respParseException m)
        n ri margs = Except.ok (-1, none)) ∧
    (∀ (ci : String → String) (n : Nat) (ri : Int)
        (margs : Option (List Message × Bool)) (m : String),
      default_exception_handler ci (ProviderExc.otherException m)
        n ri margs = Except.ok (-1, none)) ∧
    (∀ (ci : String → String) (code n : Nat) (ri : Int)
        (margs : Option (List Message × Bool)) (s : String),
      code ∉ [400, 401, 402, 403, 404] → code ≠ 413 → code ≠ 429 →
      code < 500 →
      default_exception_handler ci (ProviderExc.respNotOkException code s)
        n ri margs = Except.ok (-1, none)) ∧
    (∀ (ci : String → String) (beh : Nat → ProviderOutcome)
        (msgs : List Message) (ri : Int) (n attempt : Nat)
        (comp : Option (List Message)) (m : String),
      beh attempt = ProviderOutcome.exc (ProviderExc.reqAbortException m) →
      response_trial ci beh msgs ri (n + 1) attempt comp =
        ([Event.create, Event.invoke, Event.updateFailure],
          TrialResult.exhausted)) ∧
    (∀ (ci : String → String) (beh : Nat → Nat → ProviderOutcome)
        (rc : RequestConfig) (msgs : List Message)
        (c : ModelInfo × ModelUsageConfigItem)
        (rest : List (ModelInfo × ModelUsageConfigItem)) (idx : Nat),
      (response_trial ci (beh idx) msgs rc.retry_interval
        (effective_max_retry c.2.max_retry rc.max_retry + 1) 0 none).2 =
        TrialResult.exhausted →
      get_response_loop ci beh rc msgs (c :: rest) idx =
        ((response_trial ci (beh idx) msgs rc.retry_interval
            (effective_max_retry c.2.max_retry rc.max_retry + 1) 0 none).1 ++
          (get_response_loop ci beh rc msgs rest (idx + 1)).1,
         (get_response_loop ci beh rc msgs rest (idx + 1)).2)) := by
  refine ⟨?_, ?_, ?_, ?_, ?_, ?_, ?_⟩
  · intro ci code n ri margs s h
    simp only [default_exception_handler]
    rw [if_pos h]
  · intro ci n ri margs m; rfl
  · intro ci n ri margs m; rfl
  · intro ci n ri margs m; rfl
  · intro ci code n ri margs s h1 h2 h3 h4
    simp only [default_exception_handler]
    rw [if_neg h1, if_neg h2, if_neg h3, if_neg (by omega : ¬ code ≥ 500)]
  · intro ci beh msgs ri n attempt comp m hbeh
    simp only [response_trial, hbeh, default_exception_handler]
    simp
  · intro ci beh rc msgs c rest idx h
    simp only [get_response_loop]
    rw [h]

/-- C6 witness: the abort classifications at concrete inputs, including a
trial that stops after a single attempt. -/
theorem C6_witness :
    default_exception_handler id (ProviderExc.respNotOkException 404 "nf")
      5 10 (some ([], false)) = Except.ok (-1, none) ∧
    default_exception_handler id (ProviderExc.reqAbortException "stop")
      5 10 none = Except.ok (-1, none) ∧
    default_exception_handler id (ProviderExc.respNotOkException 418 "t")
      5 10 none = Except.ok (-1, none) ∧
    response_trial id (fun _ => ProviderOutcome.exc
        (ProviderExc.reqAbortException "stop")) [] 10 3 0 none =
      ([Event.create, Event.invoke, Event.updateFailure],
        TrialResult.exhausted) :=
  ⟨C6_abort_classifications.1 id 404 5 10 (some ([], false)) "nf" (by decide),
   C6_abort_classifications.2.1 id 5 10 none "stop",
   C6_abort_classifications.2.2.2.2.1 id 418 5 10 none "t"
     (by decide) (by decide) (by decide) (by decide),
   C6_abort_classifications.2.2.2.2.2.1 id _ [] 10 2 0 none "stop" rfl⟩

/-- C7: the three retryable classifications — connection failure, status
429 and status ≥ 500 — yield `Wait(retry_interval)` while attempts remain
and Abort at zero; and the trial loop applies a Wait decision `w ∉ {-1,0}`
by sleeping `w` and retrying the same candidate with the same payload. -/
theorem C7_retryable_policy :
    (∀ (ci : String → String) (n : Nat) (ri : Int)
        (margs : Option (List Message × Bool)) (m : String),
      n > 0 →
      default_exception_handler ci (ProviderExc.networkConnectionError m)
        n ri margs = Except.ok (ri, none)) ∧
    (∀ (ci : String → String) (ri : Int)
        (margs : Option (List Message × Bool)) (m : String),
      default_exception_handler ci (ProviderExc.networkConnectionError m)
        0 ri margs = Except.ok (-1, none)) ∧
    (∀ (ci : String → String) (n : Nat) (ri : Int)
        (margs : Option (List Message × Bool)) (s : String),
      n > 0 →
      default_exception_handler ci (ProviderExc.respNotOkException 429 s)
        n ri margs = Except.ok (ri, none)) ∧
    (∀ (ci : String → String) (ri : Int)
        (margs : Option (List Message × Bool)) (s : String),
      default_exception_handler ci (ProviderExc.respNotOkException 429 s)
        0 ri margs = Except.ok (-1, none)) ∧
    (∀ (ci : String → String) (code n : Nat) (ri : Int)
        (margs : Option (List Message × Bool)) (s : String),
      500 ≤ code → n > 0 →
      default_exception_handler ci (ProviderExc.respNotOkException code s)
        n ri margs = Except.ok (ri, none)) ∧
    (∀ (ci : String → String) (code : Nat) (ri : Int)
        (margs : Option (List Message × Bool)) (s : String),
      500 ≤ code →
      default_exception_handler ci (ProviderExc.respNotOkException code s)
        0 ri margs = Except.ok (-1, none)) ∧
    (∀ (ci : String → String) (beh : Nat → ProviderOutcome)
        (msgs : List Message) (ri : Int) (n attempt : Nat)
        (comp : Option (List Message)) (e : ProviderExc) (w : Int),
      beh attempt = ProviderOutcome.exc e →
      default_exception_handler ci e n ri (some (msgs, comp.isSome)) =
        Except.ok (w, none) →
      w ≠ -1 → w ≠ 0 →
      response_trial ci beh msgs ri (n + 1) attempt comp =
        ([Event.create, Event.invoke, Event.updateFailure, Event.sleep w] ++
          (response_trial ci beh msgs ri n (attempt + 1) comp).1,
         (response_trial ci beh msgs ri n (attempt + 1) comp).2)) := by
  refine ⟨?_, ?_, ?_, ?_, ?_, ?_, ?_⟩
  · intro ci n ri margs m hn
    simp [default_exception_handler, hn]
  · intro ci ri margs m
    simp [default_exception_handler]
  · intro ci n ri margs s hn
    simp [default_exception_handler, hn]
  · intro ci ri margs s
    simp [default_exception_handler]
  · intro ci code n ri margs s hc hn
    have h1 : code ∉ [400, 401, 402, 403, 404] := by
      intro hmem; fin_cases hmem <;> omega
    have h2 : code ≠ 413 := by omega
    have h3 : code ≠ 429 := by omega
    simp only [default_exception_handler]
    rw [if_neg h1, if_neg h2, if_neg h3, if_pos (by omega : code ≥ 500),
      if_pos hn]
  · intro ci code ri margs s hc
    have h1 : code ∉ [400, 401, 402, 403, 404] := by
      intro hmem; fin_cases hmem <;> omega
    have h2 : code ≠ 413 := by omega
    have h3 : code ≠ 429 := by omega
    simp only [default_exception_handler]
    rw [if_neg h1, if_neg h2, if_neg h3, if_pos (by omega : code ≥ 500)]
    simp
  · intro ci beh msgs ri n attempt comp e w hbeh hh hw1 hw0
    simp only [response_trial, hbeh, hh]
    rw [if_neg hw1, if_pos hw0]
    simp

/-- C7 witness: the retryable decisions and the sleeping retry at
concrete inputs (behaviour failing with 429, interval 10, two attempts
remaining after the decrement). -/
theorem C7_witness :
    default_exception_handler id (ProviderExc.networkConnectionError "m")
      2 10 none = Except.ok (10, none) ∧
    default_exception_handler id (ProviderExc.networkConnectionError "m")
      0 10 none = Except.ok (-1, none) ∧
    default_exception_handler id (ProviderExc.respNotOkException 429 "s")
      2 10 none = Except.ok (10, none) ∧
    default_exception_handler id (ProviderExc.respNotOkException 429 "s")
      0 10 none = Except.ok (-1, none) ∧
    default_exception_handler id (ProviderExc.respNotOkException 503 "s")
      2 10 none = Except.ok (10, none) ∧
    default_exception_handler id (ProviderExc.respNotOkException 503 "s")
      0 10 none = Except.ok (-1, none) ∧
    response_trial id (fun _ => ProviderOutcome.exc
        (ProviderExc.respNotOkException 429 "s")) [] 10 (2 + 1) 0 none =
      ([Event.create, Event.invoke, Event.updateFailure, Event.sleep 10] ++
        (response_trial id (fun _ => ProviderOutcome.exc
          (ProviderExc.respNotOkException 429 "s")) [] 10 2 1 none).1,
       (response_trial id (fun _ => ProviderOutcome.exc
          (ProviderExc.respNotOkException 429 "s")) [] 10 2 1 none).2) :=
  ⟨C7_retryable_policy.1 id 2 10 none "m" (by decide),
   C7_retryable_policy.2.1 id 10 none "m",
   C7_retryable_policy.2.2.1 id 2 10 none "s" (by decide),
   C7_retryable_policy.2.2.2.1 id 10 none "s",
   C7_retryable_policy.2.2.2.2.1 id 503 2 10 none "s" (by decide) (by decide),
   C7_retryable_policy.2.2.2.2.2.1 id 503 10 none "s" (by decide),
   C7_retryable_policy.2.2.2.2.2.2 id _ [] 10 2 0 none
     (ProviderExc.respNotOkException 429 "s") 10 rfl rfl
     (by decide) (by decide)⟩

/-- C8: on the embedding path the handler receives no message list, so it
can never produce a Replace decision — a 413 maps to Abort regardless of
the remaining count, the handler never returns a new message list and
never raises, a 413 ends the candidate trial after the one attempt, and
an embedding trial's trace never contains a payload replacement. -/
theorem C8_embedding_413_aborts :
    (∀ (ci : String → String) (n : Nat) (ri : Int) (m : String),
      default_exception_handler ci (ProviderExc.respNotOkException 413 m)
        n ri none = Except.ok (-1, none)) ∧
    (∀ (ci : String → String) (e : ProviderExc) (n : Nat) (ri w : Int)
        (nm : Option (List Message)),
      default_exception_handler ci e n ri none = Except.ok (w, nm) →
      nm = none) ∧
    (∀ (ci : String → String) (e : ProviderExc) (n : Nat) (ri : Int)
        (m : String),
      default_exception_handler ci e n ri none ≠ Except.error m) ∧
    (∀ (ci : String → String) (beh : Nat → ProviderOutcome) (ri : Int)
        (n attempt : Nat) (m : String),
      beh attempt = ProviderOutcome.exc
        (ProviderExc.respNotOkException 413 m) →
      embedding_trial ci beh ri (n + 1) attempt =
        ([Event.create, Event.invoke, Event.updateFailure],
          TrialResult.exhausted)) ∧
    (∀ (ci : String → String) (beh : Nat → ProviderOutcome) (ri : Int)
        (n attempt : Nat),
      countE Event.isReplace (embedding_trial ci beh ri n attempt).1 = 0) := by
  refine ⟨?_, ?_, ?_, ?_, ?_⟩
  · intro ci n ri m; rfl
  · intro ci e n ri w nm h
    obtain ⟨w2, hw⟩ := handler_no_messages ci e n ri
    rw [hw] at h
    exact (Prod.mk.injEq _ _ _ _ ▸ (Except.ok.injEq _ _ ▸ h)).2.symm ▸ rfl
  · intro ci e n ri m h
    obtain ⟨w2, hw⟩ := handler_no_messages ci e n ri
    rw [hw] at h
    exact Except.noConfusion h
  · intro ci beh ri n attempt m hbeh
    simp only [embedding_trial, hbeh, default_exception_handler]
    simp
  · intro ci beh ri n
    induction n with
    | zero => intro attempt; simp [embedding_trial]
    | succ k ih =>
      intro attempt
      simp only [embedding_trial]
      cases hbeh : beh attempt with
      | resp r => simp [Event.isReplace]
      | exc e =>
        dsimp only
        obtain ⟨w, hw⟩ := handler_no_messages ci e k ri
        rw [hw]
        dsimp only
        by_cases hw1 : w = -1
        · simp [hw1, Event.isReplace]
        · rw [if_neg hw1]
          by_cases hw0 : w = 0
          · simp [hw0, Event.isReplace, ih (attempt + 1)]
          · simp [hw0, Event.isReplace, ih (attempt + 1)]

/-- C8 witness: an embedding candidate answering 413 aborts after exactly
one attempt even with a large remaining budget, and its trace holds no
replacement. -/
theorem C8_witness :
    default_exception_handler id (ProviderExc.respNotOkException 413 "big")
      7 10 none = Except.ok (-1, none) ∧
    embedding_trial id (fun _ => ProviderOutcome.exc
        (ProviderExc.respNotOkException 413 "big")) 10 (7 + 1) 0 =
      ([Event.create, Event.invoke, Event.updateFailure],
        TrialResult.exhausted) ∧
    countE Event.isReplace (embedding_trial id (fun _ =>
      ProviderOutcome.exc (ProviderExc.respNotOkException 413 "big"))
        10 8 0).1 = 0 :=
  ⟨C8_embedding_413_aborts.1 id 7 10 "big",
   C8_embedding_413_aborts.2.2.2.1 id _ 10 7 0 "big" rfl,
   C8_embedding_413_aborts.2.2.2.2 id _ 10 8 0⟩

/-- A `get_response` trial at counter `remain` makes at most `remain`
provider invocations. -/
theorem response_trial_invoke_le (ci : String → String)
    (beh : Nat → ProviderOutcome) (msgs : List Message) (ri : Int) :
    ∀ (remain attempt : Nat) (comp : Option (List Message)),
      countE Event.isInvoke
        (response_trial ci beh msgs ri remain attempt comp).1 ≤ remain := by
  intro remain
  induction remain with
  | zero => intro attempt comp; simp [response_trial]
  | succ n ih =>
    intro attempt comp
    simp only [response_trial]
    cases beh attempt with
    | resp r =>
      dsimp only
      by_cases hu : r.usage.isSome <;> simp [hu, Event.isInvoke]
    | exc e =>
      dsimp only
      cases h : default_exception_handler ci e n ri (some (msgs, comp.isSome)) with
      | error m => simp [Event.isInvoke]
      | ok p =>
        obtain ⟨w, nm⟩ := p
        dsimp only
        by_cases hw1 : w = -1
        · rw [if_pos hw1]
          cases nm <;> simp [Event.isInvoke]
        · rw [if_neg hw1]
          cases nm with
          | none =>
            have hrec := ih (attempt + 1) comp
            by_cases hw0 : w = 0 <;>
              simp [hw0, Event.isInvoke] <;> omega
          | some newMsgs =>
            have hrec := ih (attempt + 1) (some newMsgs)
            by_cases hw0 : w = 0 <;>
              simp [hw0, Event.isInvoke] <;> omega

/-- A `get_response` trial at counter `remain` finalizes at most `remain`
records as failures (one per failed attempt). -/
theorem response_trial_updateFailure_le (ci : String → String)
    (beh : Nat → ProviderOutcome) (msgs : List Message) (ri : Int) :
    ∀ (remain attempt : Nat) (comp : Option (List Message)),
      countE Event.isUpdateFailure
        (response_trial ci beh msgs ri remain attempt comp).1 ≤ remain := by
  intro remain
  induction remain with
  | zero => intro attempt comp; simp [response_trial]
  | succ n ih =>
    intro attempt comp
    simp only [response_trial]
    cases beh attempt with
    | resp r =>
      dsimp only
      by_cases hu : r.usage.isSome <;> simp [hu, Event.isUpdateFailure]
    | exc e =>
      dsimp only
      cases h : default_exception_handler ci e n ri (some (msgs, comp.isSome)) with
      | error m => simp [Event.isUpdateFailure]
      | ok p =>
        obtain ⟨w, nm⟩ := p
        dsimp only
        by_cases hw1 : w = -1
        · rw [if_pos hw1]
          cases nm <;> simp [Event.isUpdateFailure]
        · rw [if_neg hw1]
          cases nm with
          | none =>
            have hrec := ih (attempt + 1) comp
            by_cases hw0 : w = 0 <;>
              simp [hw0, Event.isUpdateFailure] <;> omega
          | some newMsgs =>
            have hrec := ih (attempt + 1) (some newMsgs)
            by_cases hw0 : w = 0 <;>
              simp [hw0, Event.isUpdateFailure] <;> omega

/-- A `get_embedding` trial at counter `remain` makes at most `remain`
provider invocations. -/
theorem embedding_trial_invoke_le (ci : String → String)
    (beh : Nat → ProviderOutcome) (ri : Int) :
    ∀ (remain attempt : Nat),
      countE Event.isInvoke
        (embedding_trial ci beh ri remain attempt).1 ≤ remain := by
  intro remain
  induction remain with
  | zero => intro attempt; simp [embedding_trial]
  | succ k ih =>
    intro attempt
    simp only [embedding_trial]
    cases beh attempt with
    | resp r => dsimp only; simp [Event.isInvoke]
    | exc e =>
      dsimp only
      obtain ⟨w, hw⟩ := handler_no_messages ci e k ri
      rw [hw]
      dsimp only
      by_cases hw1 : w = -1
      · simp [hw1, Event.isInvoke]
      · rw [if_neg hw1]
        have hrec := ih (attempt + 1)
        by_cases hw0 : w = 0 <;> simp [hw0, Event.isInvoke] <;> omega

/-- A `get_embedding` trial at counter `remain` finalizes at most `remain`
records as failures. -/
theorem embedding_trial_updateFailure_le (ci : String → String)
    (beh : Nat → ProviderOutcome) (ri : Int) :
    ∀ (remain attempt : Nat),
      countE Event.isUpdateFailure
        (embedding_trial ci beh ri remain attempt).1 ≤ remain := by
  intro remain
  induction remain with
  | zero => intro attempt; simp [embedding_trial]
  | succ k ih =>
    intro attempt
    simp only [embedding_trial]
    cases beh attempt with
    | resp r => dsimp only; simp [Event.isUpdateFailure]
    | exc e =>
      dsimp only
      obtain ⟨w, hw⟩ := handler_no_messages ci e k ri
      rw [hw]
      dsimp only
      by_cases hw1 : w = -1
      · simp [hw1, Event.isUpdateFailure]
      · rw [if_neg hw1]
        have hrec := ih (attempt + 1)
        by_cases hw0 : w = 0 <;> simp [hw0, Event.isUpdateFailure] <;> omega

/-- The `get_response` candidate loop respects the total retry budget. -/
theorem get_response_loop_invoke_le (ci : String → String)
    (beh : Nat → Nat → ProviderOutcome) (rc : RequestConfig)
    (msgs : List Message) :
    ∀ (configs : List (ModelInfo × ModelUsageConfigItem)) (idx : Nat),
      countE Event.isInvoke
        (get_response_loop ci beh rc msgs configs idx).1 ≤
        retry_budget rc configs := by
  intro configs
  induction configs with
  | nil => intro idx; simp [get_response_loop, retry_budget]
  | cons c rest ih =>
    intro idx
    simp only [get_response_loop, retry_budget, List.map_cons, List.sum_cons]
    have htrial := response_trial_invoke_le ci (beh idx) msgs rc.retry_interval
      (effective_max_retry c.2.max_retry rc.max_retry + 1) 0 none
    have ihx := ih (idx + 1)
    simp only [retry_budget] at ihx
    cases h : (response_trial ci (beh idx) msgs rc.retry_interval
        (effective_max_retry c.2.max_retry rc.max_retry + 1) 0 none).2 with
    | success r => dsimp only; omega
    | exhausted => dsimp only; simp only [countE_append]; omega
    | raised m => dsimp only; omega

/-- The `get_embedding` candidate loop respects the total retry budget. -/
theorem get_embedding_loop_invoke_le (ci : String → String)
    (beh : Nat → Nat → ProviderOutcome) (rc : RequestConfig) :
    ∀ (configs : List (ModelInfo × ModelUsageConfigItem)) (idx : Nat),
      countE Event.isInvoke
        (get_embedding_loop ci beh rc configs idx).1 ≤
        retry_budget rc configs := by
  intro configs
  induction configs with
  | nil => intro idx; simp [get_embedding_loop, retry_budget]
  | cons c rest ih =>
    intro idx
    simp only [get_embedding_loop, retry_budget, List.map_cons, List.sum_cons]
    have htrial := embedding_trial_invoke_le ci (beh idx) rc.retry_interval
      (effective_max_retry c.2.max_retry rc.max_retry + 1) 0
    have ihx := ih (idx + 1)
    simp only [retry_budget] at ihx
    cases h : (embedding_trial ci (beh idx) rc.retry_interval
        (effective_max_retry c.2.max_retry rc.max_retry + 1) 0).2 with
    | success r => dsimp only; omega
    | exhausted => dsimp only; simp only [countE_append]; omega
    | raised m => dsimp only; omega

/-- C3: one dispatch call makes at most Σ (effective_max_retry_i + 1)
provider invocations over all candidates; within one candidate's trial
both the invocation count and the failed-attempt count are bounded by the
initial counter `effective_max_retry + 1` (the counter drops by exactly
one per failed attempt and the loop ends at zero, so every trial
terminates). -/
theorem C3_attempt_budget :
    (∀ (ci : String → String) (beh : Nat → Nat → ProviderOutcome)
        (configs : List (ModelInfo × ModelUsageConfigItem))
        (rc : RequestConfig) (msgs : List Message),
      countE Event.isInvoke (get_response ci beh configs rc msgs).1 ≤
        retry_budget rc configs) ∧
    (∀ (ci : String → String) (beh : Nat → Nat → ProviderOutcome)
        (configs : List (ModelInfo × ModelUsageConfigItem))
        (rc : RequestConfig),
      countE Event.isInvoke (get_embedding ci beh configs rc).1 ≤
        retry_budget rc configs) ∧
    (∀ (ci : String → String) (beh : Nat → ProviderOutcome)
        (msgs : List Message) (ri : Int) (remain attempt : Nat)
        (comp : Option (List Message)),
      countE Event.isInvoke
        (response_trial ci beh msgs ri remain attempt comp).1 ≤ remain ∧
      countE Event.isUpdateFailure
        (response_trial ci beh msgs ri remain attempt comp).1 ≤ remain) ∧
    (∀ (ci : String → String) (beh : Nat → ProviderOutcome) (ri : Int)
        (remain attempt : Nat),
      countE Event.isInvoke
        (embedding_trial ci beh ri remain attempt).1 ≤ remain ∧
      countE Event.isUpdateFailure
        (embedding_trial ci beh ri remain attempt).1 ≤ remain) := by
  refine ⟨?_, ?_, ?_, ?_⟩
  · intro ci beh configs rc msgs
    exact get_response_loop_invoke_le ci beh rc msgs configs 0
  · intro ci beh configs rc
    exact get_embedding_loop_invoke_le ci beh rc configs 0
  · intro ci beh msgs ri remain attempt comp
    exact ⟨response_trial_invoke_le ci beh msgs ri remain attempt comp,
      response_trial_updateFailure_le ci beh msgs ri remain attempt comp⟩
  · intro ci beh ri remain attempt
    exact ⟨embedding_trial_invoke_le ci beh ri remain attempt,
      embedding_trial_updateFailure_le ci beh ri remain attempt⟩

/-- In a `get_response` trial, every provider invocation is preceded by
exactly one record creation: the two counts coincide. -/
theorem response_trial_create_eq_invoke (ci : String → String)
    (beh : Nat → ProviderOutcome) (msgs : List Message) (ri : Int) :
    ∀ (remain attempt : Nat) (comp : Option (List Message)),
      countE Event.isCreate
        (response_trial ci beh msgs ri remain attempt comp).1 =
      countE Event.isInvoke
        (response_trial ci beh msgs ri remain attempt comp).1 := by
  intro remain
  induction remain with
  | zero => intro attempt comp; simp [response_trial]
  | succ n ih =>
    intro attempt comp
    simp only [response_trial]
    cases beh attempt with
    | resp r =>
      dsimp only
      by_cases hu : r.usage.isSome <;>
        simp [hu, Event.isCreate, Event.isInvoke]
    | exc e =>
      dsimp only
      cases h : default_exception_handler ci e n ri (some (msgs, comp.isSome)) with
      | error m => simp [Event.isCreate, Event.isInvoke]
      | ok p =>
        obtain ⟨w, nm⟩ := p
        dsimp only
        by_cases hw1 : w = -1
        · rw [if_pos hw1]
          cases nm <;> simp [Event.isCreate, Event.isInvoke]
        · rw [if_neg hw1]
          cases nm with
          | none =>
            have hrec := ih (attempt + 1) comp
            by_cases hw0 : w = 0 <;>
              simp [hw0, Event.isCreate, Event.isInvoke] <;> omega
          | some newMsgs =>
            have hrec := ih (attempt + 1) (some newMsgs)
            by_cases hw0 : w = 0 <;>
              simp [hw0, Event.isCreate, Event.isInvoke] <;> omega

/-- In a `get_response` trial, every invocation receives a finalizing
update except a final success carrying no usage tuple. -/
theorem response_trial_update_eq (ci : String → String)
    (beh : Nat → ProviderOutcome) (msgs : List Message) (ri : Int) :
    ∀ (remain attempt : Nat) (comp : Option (List Message)),
      countE Event.isUpdate
        (response_trial ci beh msgs ri remain attempt comp).1 +
      responseMissingUpdate
        (response_trial ci beh msgs ri remain attempt comp).2 =
      countE Event.isInvoke
        (response_trial ci beh msgs ri remain attempt comp).1 := by
  intro remain
  induction remain with
  | zero => intro attempt comp; simp [response_trial, responseMissingUpdate]
  | succ n ih =>
    intro attempt comp
    simp only [response_trial]
    cases beh attempt with
    | resp r =>
      dsimp only
      by_cases hu : r.usage.isSome <;>
        simp [hu, Event.isUpdate, Event.isInvoke, responseMissingUpdate]
    | exc e =>
      dsimp only
      cases h : default_exception_handler ci e n ri (some (msgs, comp.isSome)) with
      | error m =>
        simp [Event.isUpdate, Event.isInvoke, responseMissingUpdate]
      | ok p =>
        obtain ⟨w, nm⟩ := p
        dsimp only
        by_cases hw1 : w = -1
        · rw [if_pos hw1]
          cases nm <;>
            simp [Event.isUpdate, Event.isInvoke, responseMissingUpdate]
        · rw [if_neg hw1]
          cases nm with
          | none =>
            have hrec := ih (attempt + 1) comp
            by_cases hw0 : w = 0 <;>
              simp [hw0, Event.isUpdate, Event.isInvoke] <;> omega
          | some newMsgs =>
            have hrec := ih (attempt + 1) (some newMsgs)
            by_cases hw0 : w = 0 <;>
              simp [hw0, Event.isUpdate, Event.isInvoke] <;> omega

/-- In a `get_embedding` trial, record creations and invocations
coincide. -/
theorem embedding_trial_create_eq_invoke (ci : String → String)
    (beh : Nat → ProviderOutcome) (ri : Int) :
    ∀ (remain attempt : Nat),
      countE Event.isCreate (embedding_trial ci beh ri remain attempt).1 =
      countE Event.isInvoke (embedding_trial ci beh ri remain attempt).1 := by
  intro remain
  induction remain with
  | zero => intro attempt; simp [embedding_trial]
  | succ k ih =>
    intro attempt
    simp only [embedding_trial]
    cases beh attempt with
    | resp r => dsimp only; simp [Event.isCreate, Event.isInvoke]
    | exc e =>
      dsimp only
      obtain ⟨w, hw⟩ := handler_no_messages ci e k ri
      rw [hw]
      dsimp only
      by_cases hw1 : w = -1
      · simp [hw1, Event.isCreate, Event.isInvoke]
      · rw [if_neg hw1]
        have hrec := ih (attempt + 1)
        by_cases hw0 : w = 0 <;>
          simp [hw0, Event.isCreate, Event.isInvoke] <;> omega

/-- In a `get_embedding` trial, every invocation receives a finalizing
update except a success (whose record stays pending). -/
theorem embedding_trial_update_eq (ci : String → String)
    (beh : Nat → ProviderOutcome) (ri : Int) :
    ∀ (remain attempt : Nat),
      countE Event.isUpdate (embedding_trial ci beh ri remain attempt).1 +
      embeddingMissingUpdate (embedding_trial ci beh ri remain attempt).2 =
      countE Event.isInvoke (embedding_trial ci beh ri remain attempt).1 := by
  intro remain
  induction remain with
  | zero => intro attempt; simp [embedding_trial, embeddingMissingUpdate]
  | succ k ih =>
    intro attempt
    simp only [embedding_trial]
    cases beh attempt with
    | resp r =>
      dsimp only
      simp [Event.isUpdate, Event.isInvoke, embeddingMissingUpdate]
    | exc e =>
      dsimp only
      obtain ⟨w, hw⟩ := handler_no_messages ci e k ri
      rw [hw]
      dsimp only
      by_cases hw1 : w = -1
      · simp [hw1, Event.isUpdate, Event.isInvoke, embeddingMissingUpdate]
      · rw [if_neg hw1]
        have hrec := ih (attempt + 1)
        by_cases hw0 : w = 0 <;>
          simp [hw0, Event.isUpdate, Event.isInvoke] <;> omega

/-- Creations and invocations coincide over the whole `get_response`
candidate loop. -/
theorem get_response_loop_create_eq_invoke (ci : String → String)
    (beh : Nat → Nat → ProviderOutcome) (rc : RequestConfig)
    (msgs : List Message) :
    ∀ (configs : List (ModelInfo × ModelUsageConfigItem)) (idx : Nat),
      countE Event.isCreate (get_response_loop ci beh rc msgs configs idx).1 =
      countE Event.isInvoke (get_response_loop ci beh rc msgs configs idx).1 := by
  intro configs
  induction configs with
  | nil => intro idx; simp [get_response_loop]
  | cons c rest ih =>
    intro idx
    simp only [get_response_loop]
    have htrial := response_trial_create_eq_invoke ci (beh idx) msgs
      rc.retry_interval (effective_max_retry c.2.max_retry rc.max_retry + 1)
      0 none
    have ihx := ih (idx + 1)
    cases h : (response_trial ci (beh idx) msgs rc.retry_interval
        (effective_max_retry c.2.max_retry rc.max_retry + 1) 0 none).2 with
    | success r => dsimp only; omega
    | exhausted => dsimp only; simp only [countE_append]; omega
    | raised m => dsimp only; omega

/-- Update accounting over the whole `get_response` candidate loop. -/
theorem get_response_loop_update_eq (ci : String → String)
    (beh : Nat → Nat → ProviderOutcome) (rc : RequestConfig)
    (msgs : List Message) :
    ∀ (configs : List (ModelInfo × ModelUsageConfigItem)) (idx : Nat),
      countE Event.isUpdate (get_response_loop ci beh rc msgs configs idx).1 +
      responseMissingUpdateD (get_response_loop ci beh rc msgs configs idx).2 =
      countE Event.isInvoke (get_response_loop ci beh rc msgs configs idx).1 := by
  intro configs
  induction configs with
  | nil => intro idx; simp [get_response_loop, responseMissingUpdateD]
  | cons c rest ih =>
    intro idx
    simp only [get_response_loop]
    have htrial := response_trial_update_eq ci (beh idx) msgs
      rc.retry_interval (effective_max_retry c.2.max_retry rc.max_retry + 1)
      0 none
    have ihx := ih (idx + 1)
    cases h : (response_trial ci (beh idx) msgs rc.retry_interval
        (effective_max_retry c.2.max_retry rc.max_retry + 1) 0 none).2 with
    | success r =>
      rw [h] at htrial
      dsimp only
      simp only [responseMissingUpdate, responseMissingUpdateD] at htrial ⊢
      omega
    | exhausted =>
      rw [h] at htrial
      dsimp only
      simp only [responseMissingUpdate] at htrial
      simp only [countE_append]
      omega
    | raised m =>
      rw [h] at htrial
      dsimp only
      simp only [responseMissingUpdate, responseMissingUpdateD] at htrial ⊢
      omega

/-- Creations and invocations coincide over the whole `get_embedding`
candidate loop. -/
theorem get_embedding_loop_create_eq_invoke (ci : String → String)
    (beh : Nat → Nat → ProviderOutcome) (rc : RequestConfig) :
    ∀ (configs : List (ModelInfo × ModelUsageConfigItem)) (idx : Nat),
      countE Event.isCreate (get_embedding_loop ci beh rc configs idx).1 =
      countE Event.isInvoke (get_embedding_loop ci beh rc configs idx).1 := by
  intro configs
  induction configs with
  | nil => intro idx; simp [get_embedding_loop]
  | cons c rest ih =>
    intro idx
    simp only [get_embedding_loop]
    have htrial := embedding_trial_create_eq_invoke ci (beh idx)
      rc.retry_interval (effective_max_retry c.2.max_retry rc.max_retry + 1) 0
    have ihx := ih (idx + 1)
    cases h : (embedding_trial ci (beh idx) rc.retry_interval
        (effective_max_retry c.2.max_retry rc.max_retry + 1) 0).2 with
    | success r => dsimp only; omega
    | exhausted => dsimp only; simp only [countE_append]; omega
    | raised m => dsimp only; omega

/-- Update accounting over the whole `get_embedding` candidate loop. -/
theorem get_embedding_loop_update_eq (ci : String → String)
    (beh : Nat → Nat → ProviderOutcome) (rc : RequestConfig) :
    ∀ (configs : List (ModelInfo × ModelUsageConfigItem)) (idx : Nat),
      countE Event.isUpdate (get_embedding_loop ci beh rc configs idx).1 +
      embeddingMissingUpdateD (get_embedding_loop ci beh rc configs idx).2 =
      countE Event.isInvoke (get_embedding_loop ci beh rc configs idx).1 := by
  intro configs
  induction configs with
  | nil => intro idx; simp [get_embedding_loop, embeddingMissingUpdateD]
  | cons c rest ih =>
    intro idx
    simp only [get_embedding_loop]
    have htrial := embedding_trial_update_eq ci (beh idx)
      rc.retry_interval (effective_max_retry c.2.max_retry rc.max_retry + 1) 0
    have ihx := ih (idx + 1)
    cases h : (embedding_trial ci (beh idx) rc.retry_interval
        (effective_max_retry c.2.max_retry rc.max_retry + 1) 0).2 with
    | success r =>
      rw [h] at htrial
      dsimp only
      simp only [embeddingMissingUpdate, embeddingMissingUpdateD] at htrial ⊢
      omega
    | exhausted =>
      rw [h] at htrial
      dsimp only
      simp only [embeddingMissingUpdate] at htrial
      simp only [countE_append]
      omega
    | raised m =>
      rw [h] at htrial
      dsimp only
      simp only [embeddingMissingUpdate, embeddingMissingUpdateD] at htrial ⊢
      omega

/-- C1 counterexample: a dispatch call whose single attempt succeeds with
an envelope carrying no usage tuple creates one record and invokes the
provider once but issues no finalizing update at all, so
count(update) ≠ count(invocations). -/
theorem C1_counterexample :
    countE Event.isCreate
      (get_response id behOkNoUsage [(mi0, mu0)] rc0 []).1 = 1 ∧
    countE Event.isInvoke
      (get_response id behOkNoUsage [(mi0, mu0)] rc0 []).1 = 1 ∧
    countE Event.isUpdate
      (get_response id behOkNoUsage [(mi0, mu0)] rc0 []).1 = 0 := by
  decide

/-- C1 amended: over any whole dispatch call, exactly one usage record is
created per provider invocation (count(create) == count(invocations)),
and every attempt receives exactly one finalizing update except a final
successful `get_response` attempt whose envelope has no usage tuple and
every successful `get_embedding` attempt, whose records stay pending —
so count(update) plus that one possibly-missing update equals
count(invocations). -/
theorem C1_amended (ci : String → String)
    (beh : Nat → Nat → ProviderOutcome)
    (configs : List (ModelInfo × ModelUsageConfigItem))
    (rc : RequestConfig) (msgs : List Message) :
    (countE Event.isCreate (get_response ci beh configs rc msgs).1 =
      countE Event.isInvoke (get_response ci beh configs rc msgs).1) ∧
    (countE Event.isUpdate (get_response ci beh configs rc msgs).1 +
      responseMissingUpdateD (get_response ci beh configs rc msgs).2 =
      countE Event.isInvoke (get_response ci beh configs rc msgs).1) ∧
    (countE Event.isCreate (get_embedding ci beh configs rc).1 =
      countE Event.isInvoke (get_embedding ci beh configs rc).1) ∧
    (countE Event.isUpdate (get_embedding ci beh configs rc).1 +
      embeddingMissingUpdateD (get_embedding ci beh configs rc).2 =
      countE Event.isInvoke (get_embedding ci beh configs rc).1) :=
  ⟨get_response_loop_create_eq_invoke ci beh rc msgs configs 0,
   get_response_loop_update_eq ci beh rc msgs configs 0,
   get_embedding_loop_create_eq_invoke ci beh rc configs 0,
   get_embedding_loop_update_eq ci beh rc configs 0⟩

/-- When the original message list compresses successfully, a
`get_response` trial never ends in an escaping exception. -/
theorem response_trial_no_raise (ci : String → String)
    (beh : Nat → ProviderOutcome) (msgs : List Message) (ri : Int)
    (cm : List Message) (hc : compress_messages ci msgs = Except.ok cm) :
    ∀ (remain attempt : Nat) (comp : Option (List Message)) (m : String),
      (response_trial ci beh msgs ri remain attempt comp).2 ≠
        TrialResult.raised m := by
  intro remain
  induction remain with
  | zero => intro attempt comp m; simp [response_trial]
  | succ n ih =>
    intro attempt comp m
    simp only [response_trial]
    cases beh attempt with
    | resp r =>
      dsimp only
      by_cases hu : r.usage.isSome <;> simp [hu]
    | exc e =>
      dsimp only
      cases h : default_exception_handler ci e n ri (some (msgs, comp.isSome)) with
      | error m2 =>
        exact absurd h (handler_no_raise ci e n ri msgs comp.isSome cm hc m2)
      | ok p =>
        obtain ⟨w, nm⟩ := p
        dsimp only
        by_cases hw1 : w = -1
        · rw [if_pos hw1]; cases nm <;> simp
        · rw [if_neg hw1]
          cases nm with
          | none => exact ih (attempt + 1) comp m
          | some newMsgs => exact ih (attempt + 1) (some newMsgs) m

/-- A `get_embedding` trial never ends in an escaping exception: the
handler is called without messages and so never raises. -/
theorem embedding_trial_no_raise (ci : String → String)
    (beh : Nat → ProviderOutcome) (ri : Int) :
    ∀ (remain attempt : Nat) (m : String),
      (embedding_trial ci beh ri remain attempt).2 ≠
        TrialResult.raised m := by
  intro remain
  induction remain with
  | zero => intro attempt m; simp [embedding_trial]
  | succ k ih =>
    intro attempt m
    simp only [embedding_trial]
    cases beh attempt with
    | resp r => dsimp only; simp
    | exc e =>
      dsimp only
      obtain ⟨w, hw⟩ := handler_no_messages ci e k ri
      rw [hw]
      dsimp only
      by_cases hw1 : w = -1
      · simp [hw1]
      · rw [if_neg hw1]
        exact ih (attempt + 1) m

/-- When the original message list compresses successfully, the whole
`get_response` candidate loop never raises. -/
theorem get_response_loop_no_raise (ci : String → String)
    (beh : Nat → Nat → ProviderOutcome) (rc : RequestConfig)
    (msgs : List Message) (cm : List Message)
    (hc : compress_messages ci msgs = Except.ok cm) :
    ∀ (configs : List (ModelInfo × ModelUsageConfigItem)) (idx : Nat)
      (m : String),
      (get_response_loop ci beh rc msgs configs idx).2 ≠
        DispatchResult.raised m := by
  intro configs
  induction configs with
  | nil => intro idx m; simp [get_response_loop]
  | cons c rest ih =>
    intro idx m
    simp only [get_response_loop]
    cases h : (response_trial ci (beh idx) msgs rc.retry_interval
        (effective_max_retry c.2.max_retry rc.max_retry + 1) 0 none).2 with
    | success r => dsimp only; simp
    | exhausted => dsimp only; exact ih (idx + 1) m
    | raised m2 =>
      exact absurd h (response_trial_no_raise ci (beh idx) msgs
        rc.retry_interval cm hc _ 0 none m2)

/-- The whole `get_embedding` candidate loop never raises. -/
theorem get_embedding_loop_no_raise (ci : String → String)
    (beh : Nat → Nat → ProviderOutcome) (rc : RequestConfig) :
    ∀ (configs : List (ModelInfo × ModelUsageConfigItem)) (idx : Nat)
      (m : String),
      (get_embedding_loop ci beh rc configs idx).2 ≠
        DispatchResult.raised m := by
  intro configs
  induction configs with
  | nil => intro idx m; simp [get_embedding_loop]
  | cons c rest ih =>
    intro idx m
    simp only [get_embedding_loop]
    cases h : (embedding_trial ci (beh idx) rc.retry_interval
        (effective_max_retry c.2.max_retry rc.max_retry + 1) 0).2 with
    | success r => dsimp only; simp
    | exhausted => dsimp only; exact ih (idx + 1) m
    | raised m2 =>
      exact absurd h (embedding_trial_no_raise ci (beh idx)
        rc.retry_interval _ 0 m2)

/-- C2 counterexample: with a message whose list content is empty (which
`MessageBuilder` could never build), a 413 answer makes the shrink path
call `compress_messages`, whose `ValueError` escapes `get_response` to
the caller — the call raises instead of returning an envelope or the
exhausted outcome. -/
theorem C2_counterexample :
    (get_response id beh413 [(mi0, mu0)] rc0 [badMsg]).2 =
      DispatchResult.raised "content must not be empty" := by
  decide

/-- C2 amended: for every input whose message list compresses without
error (in particular any list of `MessageBuilder`-built messages) and
every provider behaviour over the classified exception kinds,
`get_response` never propagates an exception: it returns a successful
envelope or the exhausted outcome; `get_embedding` does so
unconditionally. -/
theorem C2_amended (ci : String → String)
    (beh : Nat → Nat → ProviderOutcome)
    (configs : List (ModelInfo × ModelUsageConfigItem))
    (rc : RequestConfig) (msgs : List Message) (cm : List Message)
    (hc : compress_messages ci msgs = Except.ok cm) :
    ((∃ r, (get_response ci beh configs rc msgs).2 =
        DispatchResult.success r) ∨
      (get_response ci beh configs rc msgs).2 = DispatchResult.exhausted) ∧
    ((∃ r, (get_embedding ci beh configs rc).2 =
        DispatchResult.success r) ∨
      (get_embedding ci beh configs rc).2 = DispatchResult.exhausted) := by
  constructor
  · cases h : (get_response ci beh configs rc msgs).2 with
    | success r => exact Or.inl ⟨r, rfl⟩
    | exhausted => exact Or.inr rfl
    | raised m =>
      exact absurd h (get_response_loop_no_raise ci beh rc msgs cm hc
        configs 0 m)
  · cases h : (get_embedding ci beh configs rc).2 with
    | success r => exact Or.inl ⟨r, rfl⟩
    | exhausted => exact Or.inr rfl
    | raised m =>
      exact absurd h (get_embedding_loop_no_raise ci beh rc configs 0 m)

/-- C2 witness: a concrete dispatch (empty, trivially compressible
message list; always-succeeding provider) lands in the
success-or-exhausted disjunction. -/
theorem C2_witness :
    ((∃ r, (get_response id behOkNoUsage [(mi0, mu0)] rc0 []).2 =
        DispatchResult.success r) ∨
      (get_response id behOkNoUsage [(mi0, mu0)] rc0 []).2 =
        DispatchResult.exhausted) ∧
    ((∃ r, (get_embedding id behOkNoUsage [(mi0, mu0)] rc0).2 =
        DispatchResult.success r) ∨
      (get_embedding id behOkNoUsage [(mi0, mu0)] rc0).2 =
        DispatchResult.exhausted) :=
  C2_amended id behOkNoUsage [(mi0, mu0)] rc0 [] [] rfl

/-- Once the compressed list is installed (the shrunk flag is set), a
`get_response` trial never installs another: the flag never reverts and
the handler, seeing the flag, never returns a new message list. -/
theorem response_trial_replace_shrunk (ci : String → String)
    (beh : Nat → ProviderOutcome) (msgs : List Message) (ri : Int) :
    ∀ (remain attempt : Nat) (cmsgs : List Message),
      countE Event.isReplace
        (response_trial ci beh msgs ri remain attempt (some cmsgs)).1 = 0 := by
  intro remain
  induction remain with
  | zero => intro attempt cmsgs; simp [response_trial]
  | succ n ih =>
    intro attempt cmsgs
    simp only [response_trial]
    cases beh attempt with
    | resp r =>
      dsimp only
      by_cases hu : r.usage.isSome <;> simp [hu, Event.isReplace]
    | exc e =>
      dsimp only
      obtain ⟨w, hw⟩ := handler_flag_true ci e n ri msgs
      simp only [Option.isSome_some] at hw ⊢
      rw [hw]
      dsimp only
      by_cases hw1 : w = -1
      · simp [hw1, Event.isReplace]
      · rw [if_neg hw1]
        have hrec := ih (attempt + 1) cmsgs
        by_cases hw0 : w = 0 <;> simp [hw0, Event.isReplace] <;> omega

/-- Starting from an uncompressed payload, a `get_response` trial
installs the compressed list at most once. -/
theorem response_trial_replace_le_one (ci : String → String)
    (beh : Nat → ProviderOutcome) (msgs : List Message) (ri : Int) :
    ∀ (remain attempt : Nat),
      countE Event.isReplace
        (response_trial ci beh msgs ri remain attempt none).1 ≤ 1 := by
  intro remain
  induction remain with
  | zero => intro attempt; simp [response_trial]
  | succ n ih =>
    intro attempt
    simp only [response_trial]
    cases beh attempt with
    | resp r =>
      dsimp only
      by_cases hu : r.usage.isSome <;> simp [hu, Event.isReplace]
    | exc e =>
      dsimp only
      cases h : default_exception_handler ci e n ri (some (msgs, Option.isSome none)) with
      | error m => simp [Event.isReplace]
      | ok p =>
        obtain ⟨w, nm⟩ := p
        dsimp only
        by_cases hw1 : w = -1
        · rw [if_pos hw1]
          cases nm <;> simp [Event.isReplace]
        · rw [if_neg hw1]
          cases nm with
          | none =>
            have hrec := ih (attempt + 1)
            by_cases hw0 : w = 0 <;> simp [hw0, Event.isReplace] <;> omega
          | some newMsgs =>
            have hrec := response_trial_replace_shrunk ci beh msgs ri n
              (attempt + 1) newMsgs
            by_cases hw0 : w = 0 <;> simp [hw0, Event.isReplace] <;> omega

/-- C5: a 413 on an unshrunk shrinkable payload yields exactly one
Replace decision `(0, compressed)` — retry immediately, no sleep, with
the compressed messages and the shrunk flag set from then on; a 413 with
the flag already set yields Abort; within any single candidate trial the
compressed list is installed at most once and, once installed, never
reverts. -/
theorem C5_replace_once :
    (∀ (ci : String → String) (msgs cm : List Message) (n : Nat) (ri : Int)
        (m : String),
      compress_messages ci msgs = Except.ok cm →
      default_exception_handler ci (ProviderExc.respNotOkException 413 m)
        n ri (some (msgs, false)) = Except.ok (0, some cm)) ∧
    (∀ (ci : String → String) (msgs : List Message) (n : Nat) (ri : Int)
        (m : String),
      default_exception_handler ci (ProviderExc.respNotOkException 413 m)
        n ri (some (msgs, true)) = Except.ok (-1, none)) ∧
    (∀ (ci : String → String) (beh : Nat → ProviderOutcome)
        (msgs cm : List Message) (ri : Int) (n attempt : Nat) (m : String),
      beh attempt = ProviderOutcome.exc
        (ProviderExc.respNotOkException 413 m) →
      compress_messages ci msgs = Except.ok cm →
      response_trial ci beh msgs ri (n + 1) attempt none =
        ([Event.create, Event.invoke, Event.updateFailure, Event.replace] ++
          (response_trial ci beh msgs ri n (attempt + 1) (some cm)).1,
         (response_trial ci beh msgs ri n (attempt + 1) (some cm)).2)) ∧
    (∀ (ci : String → String) (beh : Nat → ProviderOutcome)
        (msgs : List Message) (ri : Int) (remain attempt : Nat)
        (cmsgs : List Message),
      countE Event.isReplace
        (response_trial ci beh msgs ri remain attempt (some cmsgs)).1 = 0) ∧
    (∀ (ci : String → String) (beh : Nat → ProviderOutcome)
        (msgs : List Message) (ri : Int) (remain attempt : Nat),
      countE Event.isReplace
        (response_trial ci beh msgs ri remain attempt none).1 ≤ 1) := by
  refine ⟨?_, ?_, ?_, ?_, ?_⟩
  · intro ci msgs cm n ri m hc
    simp [default_exception_handler, hc]
  · intro ci msgs n ri m
    simp [default_exception_handler]
  · intro ci beh msgs cm ri n attempt m hbeh hc
    simp only [response_trial, hbeh, Option.isSome_none]
    have hh : default_exception_handler ci
        (ProviderExc.respNotOkException 413 m) n ri
        (some (msgs, false)) = Except.ok (0, some cm) := by
      simp [default_exception_handler, hc]
    rw [hh]
    simp
  · intro ci beh msgs ri remain attempt cmsgs
    exact response_trial_replace_shrunk ci beh msgs ri remain attempt cmsgs
  · intro ci beh msgs ri remain attempt
    exact response_trial_replace_le_one ci beh msgs ri remain attempt

/-- C5 witness: with an empty (trivially compressible) payload and a
candidate always answering 413, the first 413 produces the Replace
decision and the trial's trace contains exactly one replacement. -/
theorem C5_witness :
    default_exception_handler id (ProviderExc.respNotOkException 413 "big")
      2 10 (some ([], false)) = Except.ok (0, some []) ∧
    default_exception_handler id (ProviderExc.respNotOkException 413 "big")
      2 10 (some ([], true)) = Except.ok (-1, none) ∧
    response_trial id (fun _ => ProviderOutcome.exc
        (ProviderExc.respNotOkException 413 "big")) [] 10 (2 + 1) 0 none =
      ([Event.create, Event.invoke, Event.updateFailure, Event.replace] ++
        (response_trial id (fun _ => ProviderOutcome.exc
          (ProviderExc.respNotOkException 413 "big")) [] 10 2 1 (some [])).1,
       (response_trial id (fun _ => ProviderOutcome.exc
          (ProviderExc.respNotOkException 413 "big")) [] 10 2 1 (some [])).2) ∧
    countE Event.isReplace (response_trial id (fun _ =>
      ProviderOutcome.exc (ProviderExc.respNotOkException 413 "big"))
        [] 10 2 1 (some [])).1 = 0 ∧
    countE Event.isReplace (response_trial id (fun _ =>
      ProviderOutcome.exc (ProviderExc.respNotOkException 413 "big"))
        [] 10 3 0 none).1 ≤ 1 :=
  ⟨C5_replace_once.1 id [] [] 2 10 "big" rfl,
   C5_replace_once.2.1 id [] 2 10 "big",
   C5_replace_once.2.2.1 id _ [] [] 10 2 0 "big" rfl rfl,
   C5_replace_once.2.2.2.1 id _ [] 10 2 1 [],
   C5_replace_once.2.2.2.2 id _ [] 10 3 0⟩

/-- Folding valid content items into a builder succeeds and appends the
transformed items in order. -/
theorem addContentItems_ok (ci : String → String) :
    ∀ (l : List ContentItem) (b : MessageBuilder),
      (∀ it ∈ l, validItemB ci it = true) →
      addContentItems ci b l = Except.ok
        { role := b.role
          content := b.content ++ l.map (transformItem ci)
          tool_call_id := b.tool_call_id } := by
  intro l
  induction l with
  | nil => intro b _; simp [addContentItems]
  | cons it rest ih =>
    intro b h
    have hit : validItemB ci it = true := h it (List.mem_cons_self it rest)
    have hrest : ∀ x ∈ rest, validItemB ci x = true :=
      fun x hx => h x (List.mem_cons_of_mem it hx)
    cases it with
    | text s =>
      simp only [addContentItems, MessageBuilder.add_text_content]
      rw [ih _ hrest]
      simp [transformItem, List.append_assoc]
    | image fmt data =>
      simp only [validItemB, Bool.and_eq_true, Bool.not_eq_true',
        beq_eq_false_iff_ne] at hit
      simp only [addContentItems, MessageBuilder.add_image_content]
      rw [if_neg (by simpa using hit.1), if_neg hit.2]
      dsimp only
      rw [ih _ hrest]
      simp [transformItem, List.append_assoc]

/-- Building a user-role builder with nonempty content yields the
collapsed content with no tool-call id. -/
theorem build_user_ok (cl : List ContentItem) (h : cl ≠ []) :
    MessageBuilder.build
      { role := RoleType.user, content := cl, tool_call_id := none } =
      Except.ok
        { role := RoleType.user, content := (rebuiltContent cl),
          tool_call_id := none } := by
  simp only [MessageBuilder.build, rebuiltContent]
  rw [if_neg (by simpa using h), if_neg (by simp)]
  cases cl with
  | nil => exact absurd rfl h
  | cons a t => cases a <;> cases t <;> rfl

/-- Refinement of `compress_messages` against its per-message
characterization `compress_one`, for well-formed message lists. -/
theorem compress_messages_ok (ci : String → String) :
    ∀ (msgs : List Message),
      (∀ m ∈ msgs, wellFormedMessageB ci m = true) →
      compress_messages ci msgs = Except.ok (msgs.map (compress_one ci)) := by
  intro msgs
  induction msgs with
  | nil => intro _; rfl
  | cons m rest ih =>
    intro h
    have hm : wellFormedMessageB ci m = true := h m (List.mem_cons_self m rest)
    have hrest : ∀ x ∈ rest, wellFormedMessageB ci x = true :=
      fun x hx => h x (List.mem_cons_of_mem m hx)
    cases hc : m.content with
    | str s =>
      simp only [compress_messages, hc]
      rw [ih hrest]
      simp [compress_one, hc]
    | items l =>
      have hwf := hm
      simp only [wellFormedMessageB, hc, Bool.and_eq_true,
        Bool.not_eq_true', List.all_eq_true] at hwf
      have hne : l ≠ [] := by
        intro hl
        simp [hl] at hwf
      have hvalid : ∀ it ∈ l, validItemB ci it = true := hwf.2
      simp only [compress_messages, hc]
      rw [addContentItems_ok ci l MessageBuilder.init hvalid]
      simp only [MessageBuilder.init, List.nil_append]
      rw [build_user_ok (l.map (transformItem ci)) (by simpa using hne)]
      rw [ih hrest]
      simp [compress_one, hc]

/-- C10 counterexample: a message whose content is an empty list makes
`compress_messages` raise `ValueError` (from `MessageBuilder.build`)
instead of returning a list, so the claim fails on such input. -/
theorem C10_counterexample :
    compress_messages id [badMsg] =
      Except.error "content must not be empty" := by
  rfl

/-- C10 amended: for every message list whose list-content messages are
nonempty and carry valid image parts (which `MessageBuilder`-built
messages always do), `compress_messages` returns a list of the same
length and order; string-content messages pass through unchanged, and
every list-content message is rebuilt with role forced to `User`, its
tool-call id dropped, image parts transformed and text parts kept (a
singleton text list collapsing to plain-string content as `build`
does). -/
theorem C10_amended (ci : String → String) (msgs : List Message)
    (h : ∀ m ∈ msgs, wellFormedMessageB ci m = true) :
    compress_messages ci msgs = Except.ok (msgs.map (compress_one ci)) :=
  compress_messages_ok ci msgs h

/-- C10 witness: a two-message list (plain string kept as is; a tool-role
list message rebuilt as a user message without its tool-call id, its
image part passed through the compressor). -/
theorem C10_witness :
    compress_messages id
      [{ role := RoleType.assistant, content := Content.str "hello",
         tool_call_id := some "t1" },
       { role := RoleType.tool,
         content := Content.items
           [ContentItem.text "x", ContentItem.image "PNG" "QUJD"],
         tool_call_id := some "t2" }] =
      Except.ok
        ([{ role := RoleType.assistant, content := Content.str "hello",
            tool_call_id := some "t1" },
          { role := RoleType.tool,
            content := Content.items
              [ContentItem.text "x", ContentItem.image "PNG" "QUJD"],
            tool_call_id := some "t2" }].map (compress_one id)) :=
  C10_amended id _ (by decide)

end Maibot
